/-
Verification of the tgcalendar Telegram calendar assistant.

Shallow embedding of the pure logic of the repository:
  app/calendar_service.py  (date parsing, clamping, event matching, edit logic)
  app/nlp_service.py       (bounded conversation history)
  app/telegram_bot.py      (dispatcher, formatters, navigation flow)
  app/geo_service.py       (directions URL construction)

Python dicts become structures with optional fields; fallible code
(raising ValueError etc.) returns Option; remote calls are abstracted by
oracle parameters.  Chat identifiers are Int (Telegram ids may be negative).
-/
import Mathlib

set_option linter.unusedVariables false

/- ───────────────────────── string utilities ───────────────────────── -/

/-- ASCII lowercasing of a string, modelling Python str.lower on the
alphabets that matter for title comparison. -/
def lowerStr (s : String) : String := ⟨s.data.map Char.toLower⟩

/-- Prefix test on character lists. -/
def isPrefixL : List Char → List Char → Bool
  | [], _ => true
  | _ :: _, [] => false
  | a :: as, b :: bs => a == b && isPrefixL as bs

/-- Contiguous-substring test on character lists; the empty needle always
matches, exactly like the Python `in` operator on strings. -/
def containsL : List Char → List Char → Bool
  | hay, needle =>
    match hay with
    | [] => needle.isEmpty
    | _ :: t => isPrefixL needle hay || containsL t needle

/-- Python `needle in hay` for strings. -/
def strContains (hay needle : String) : Bool := containsL hay.data needle.data

/-- Python slice s[a:b] on strings (character positions, clipped). -/
def strSlice (s : String) (a b : Nat) : String := ⟨(s.data.drop a).take (b - a)⟩

/-- Split helper walking the characters with an accumulator. -/
def splitCharAux (sep : Char) : List Char → List Char → List String
  | [], cur => [⟨cur.reverse⟩]
  | c :: rest, cur =>
    if c = sep then ⟨cur.reverse⟩ :: splitCharAux sep rest []
    else splitCharAux sep rest (c :: cur)

/-- Python s.split(sep) for a one-character separator. -/
def splitChar (sep : Char) (s : String) : List String := splitCharAux sep s.data []

/-- Python int(s) restricted to non-negative decimal digit strings; None
models the ValueError on anything else. -/
def strToNat? (s : String) : Option Nat :=
  if !s.data.isEmpty && s.data.all Char.isDigit then
    some (s.data.foldl (fun a c => a * 10 + (c.toNat - 48)) 0)
  else none

/-- Python s.strip(). -/
def pyStrip (s : String) : String :=
  ⟨(((s.data.dropWhile Char.isWhitespace).reverse.dropWhile Char.isWhitespace).reverse)⟩

/-- Zero-pad a number below 100 to two digits (strftime %m / %d / %H / %M). -/
def pad2 (n : Nat) : String := if n < 10 then "0" ++ toString n else toString n

/-- Zero-pad a number below 10000 to four digits (strftime %Y). -/
def pad4 (n : Nat) : String :=
  if n < 10 then "000" ++ toString n
  else if n < 100 then "00" ++ toString n
  else if n < 1000 then "0" ++ toString n
  else toString n

/- ───────────────────────── calendar arithmetic ───────────────────────── -/

/-- Gregorian leap-year rule, as in Python calendar.isleap. -/
def isLeap (y : Nat) : Bool := decide (y % 4 = 0 ∧ (y % 100 ≠ 0 ∨ y % 400 = 0))

/-- Length of a month given the leap flag of its year. -/
def monthLen (leap : Bool) (m : Nat) : Nat :=
  if m = 2 then (if leap then 29 else 28)
  else if m = 4 ∨ m = 6 ∨ m = 9 ∨ m = 11 then 30 else 31

/-- cal.monthrange(year, month)[1]: number of days in the month. -/
def daysInMonth (y m : Nat) : Nat := monthLen (isLeap y) m

/-- A calendar date, the (year, month, day) triple of Python datetime.date. -/
structure CalDate where
  year : Nat
  month : Nat
  day : Nat
deriving DecidableEq

/-- The datetime validity constraints (datetime.MINYEAR = 1). -/
def CalDate.valid (d : CalDate) : Prop :=
  1 ≤ d.year ∧ 1 ≤ d.month ∧ d.month ≤ 12 ∧ 1 ≤ d.day ∧ d.day ≤ daysInMonth d.year d.month

instance (d : CalDate) : Decidable d.valid := by
  unfold CalDate.valid; infer_instance

/-- Days occupied by the months strictly before month m, given the leap flag. -/
def daysBeforeMonth (leap : Bool) (m : Nat) : Nat :=
  (match m with
   | 1 => 0 | 2 => 31 | 3 => 59 | 4 => 90 | 5 => 120 | 6 => 151 | 7 => 181
   | 8 => 212 | 9 => 243 | 10 => 273 | 11 => 304 | 12 => 334 | _ => 365)
  + (if leap ∧ 3 ≤ m then 1 else 0)

/-- Number of Gregorian leap years in the interval [1, y]. -/
def leapsBefore (y : Nat) : Nat := y / 4 - y / 100 + y / 400

/-- Linear day index of a date (proleptic Gregorian, day 0 = 0001-01-01). -/
def dayNumber (d : CalDate) : Nat :=
  365 * (d.year - 1) + leapsBefore (d.year - 1)
    + daysBeforeMonth (isLeap d.year) d.month + (d.day - 1)

/-- Successor date (datetime + timedelta(days=1)). -/
def nextDay (d : CalDate) : CalDate :=
  if d.day < daysInMonth d.year d.month then ⟨d.year, d.month, d.day + 1⟩
  else if d.month < 12 then ⟨d.year, d.month + 1, 1⟩
  else ⟨d.year + 1, 1, 1⟩

/-- Predecessor date (datetime - timedelta(days=1)). -/
def prevDay (d : CalDate) : CalDate :=
  if 1 < d.day then ⟨d.year, d.month, d.day - 1⟩
  else if 1 < d.month then ⟨d.year, d.month - 1, daysInMonth d.year (d.month - 1)⟩
  else ⟨d.year - 1, 12, 31⟩

/-- A time of day in hours and minutes. -/
structure TimeHM where
  hour : Nat
  minute : Nat
deriving DecidableEq

/-- A naive datetime value as produced by strptime "%Y-%m-%d %H:%M". -/
structure DateTimeHM where
  date : CalDate
  time : TimeHM
deriving DecidableEq

/-- Total minutes since day 0, the abstraction in which "plus one hour"
means plus 60. -/
def toMinutes (dt : DateTimeHM) : Nat :=
  dayNumber dt.date * 1440 + dt.time.hour * 60 + dt.time.minute

/-- Python datetime + timedelta(hours=1). -/
def addOneHour (dt : DateTimeHM) : DateTimeHM :=
  if dt.time.hour < 23 then ⟨dt.date, ⟨dt.time.hour + 1, dt.time.minute⟩⟩
  else ⟨nextDay dt.date, ⟨0, dt.time.minute⟩⟩

/-- strftime "%Y-%m-%d". -/
def fmtDate (d : CalDate) : String :=
  pad4 d.year ++ "-" ++ pad2 d.month ++ "-" ++ pad2 d.day

/-- strftime "%H:%M". -/
def fmtTime (t : TimeHM) : String := pad2 t.hour ++ ":" ++ pad2 t.minute

/-- datetime.isoformat() of a naive whole-minute datetime. -/
def isoformat (dt : DateTimeHM) : String :=
  fmtDate dt.date ++ "T" ++ fmtTime dt.time ++ ":00"

/- ───────────────────────── date parsing ───────────────────────── -/

/-- datetime.strptime(s, "%Y-%m-%d"): strict parse, None models ValueError. -/
def strptime_date (s : String) : Option CalDate :=
  match splitChar '-' s with
  | [ys, ms, ds] =>
    match strToNat? ys, strToNat? ms, strToNat? ds with
    | some y, some m, some d =>
      if 1 ≤ y ∧ y ≤ 9999 ∧ 1 ≤ m ∧ m ≤ 12 ∧ 1 ≤ d ∧ d ≤ daysInMonth y m then
        some ⟨y, m, d⟩
      else none
    | _, _, _ => none
  | _ => none

/-- strptime(s, "%H:%M"): strict time-of-day parse. -/
def parse_time (s : String) : Option TimeHM :=
  match splitChar ':' s with
  | [hs, ms] =>
    match strToNat? hs, strToNat? ms with
    | some h, some mi => if h ≤ 23 ∧ mi ≤ 59 then some ⟨h, mi⟩ else none
    | _, _ => none
  | _ => none

/-- datetime.strptime(f"{date} {time}", "%Y-%m-%d %H:%M"). -/
def strptime_dt (dateS timeS : String) : Option DateTimeHM :=
  match strptime_date dateS, parse_time timeS with
  | some d, some t => some ⟨d, t⟩
  | _, _ => none

/-- calendar_service._safe_parse_date: split on "-", take the first three
parts, clamp a too-large day to the last day of the month; None models the
exceptions raised for a bad month, a zero day or a non-numeric part. -/
def safe_parse_date (s : String) : Option CalDate :=
  match splitChar '-' s with
  | ys :: ms :: ds :: _ =>
    match strToNat? ys, strToNat? ms, strToNat? ds with
    | some y, some m, some d =>
      if 1 ≤ y ∧ y ≤ 9999 ∧ 1 ≤ m ∧ m ≤ 12 then
        let dd := min d (daysInMonth y m)
        if 1 ≤ dd then some ⟨y, m, dd⟩ else none
      else none
    | _, _, _ => none
  | _ => none

/- ───────────────────────── calendar events ───────────────────────── -/

/-- A Google Calendar event dict as the repository reads it: every key is
optional; start and end each carry at most a "dateTime" or a "date" value. -/
structure GEvent where
  id : String := ""
  summary : Option String := none
  startDateTime : Option String := none
  startDate : Option String := none
  endDateTime : Option String := none
  endDate : Option String := none
  location : Option String := none
  description : Option String := none
deriving DecidableEq

/-- Python truthiness of an optional string argument (absent or empty). -/
def truthy (o : Option String) : Bool := !(o.getD "").isEmpty

/-- Value of an optional string argument, empty when absent. -/
def tval (o : Option String) : String := o.getD ""

/- ───────────────────────── event matching (calendar_service._match_event) ── -/

/-- Stage-1 predicate of _match_event: supplied title and stored summary are
case-insensitive substrings of one another, in either direction. -/
def title_matches (title : String) (e : GEvent) : Bool :=
  let tl := lowerStr title
  let s := lowerStr (e.summary.getD "")
  strContains s tl || strContains tl s

/-- Stage-2 predicate of _match_event: the start dateTime is present and its
characters 11..15 equal the supplied "HH:MM". -/
def time_matches (st : String) (e : GEvent) : Bool :=
  let es := e.startDateTime.getD ""
  !es.isEmpty && strSlice es 11 16 == st

/-- calendar_service._match_event: title substring match, then exact start
time, then sole-event fallback. -/
def match_event (events : List GEvent) (title : String) (start_time : Option String) :
    Option GEvent :=
  if events.isEmpty then none
  else
    match events.find? (title_matches title) with
    | some e => some e
    | none =>
      match (if truthy start_time then events.find? (time_matches (tval start_time)) else none) with
      | some e => some e
      | none => if events.length = 1 then events.head? else none

/-- The three-stage selection rule in the words of the specification: prefer
a title match, else (when a time of day was supplied) an exact HH:MM start
match, else the sole candidate, else nothing. -/
def match_event_spec (events : List GEvent) (title : String) (start_time : Option String) :
    Option GEvent :=
  if ∃ e ∈ events, title_matches title e then
    events.find? (title_matches title)
  else if truthy start_time ∧ ∃ e ∈ events, time_matches (tval start_time) e then
    events.find? (time_matches (tval start_time))
  else if events.length = 1 then events.head?
  else none

/-- Inner result of calendar_service.delete_event._delete: either the matched
summary (falling back to the supplied title) or the not-found message. -/
def delete_core (events : List GEvent) (title : String) (start_time : Option String) :
    Option String × Option String :=
  match match_event events title start_time with
  | none => (none, some "해당 날짜에 일치하는 일정을 찾을 수 없습니다.")
  | some m => (some (m.summary.getD title), none)

/- ───────────────────────── edit logic (calendar_service.edit_event._update) ── -/

/-- The optional "changes" dict of edit_event. -/
structure Changes where
  title : Option String := none
  date : Option String := none
  start_time : Option String := none
  end_time : Option String := none
  description : Option String := none

/-- changes.get("date") or date. -/
def new_date_of (date : String) (c : Changes) : String :=
  if truthy c.date then tval c.date else date

/-- Title replacement of _update (changes.get("title")). -/
def apply_title_change (m : GEvent) (c : Changes) : GEvent :=
  if truthy c.title then { m with summary := some (tval c.title) } else m

/-- Description replacement of _update (changes.get("description")). -/
def apply_descr_change (m : GEvent) (c : Changes) : GEvent :=
  if truthy c.description then { m with description := some (tval c.description) } else m

/-- Start/end recomputation of _update.  When a new start time is given the
start is reparsed on new_date and, absent a new end time, the end becomes
start plus one hour; when only the date changed, a start and an end that
carry a "dateTime" value keep their character-11..15 time on the new date.
None models a ValueError from strptime. -/
def edit_stage_start (m : GEvent) (new_date : String) (c : Changes) : Option GEvent :=
  if truthy c.start_time then
    match strptime_dt new_date (tval c.start_time) with
    | none => none
    | some sdt =>
      if truthy c.end_time then
        some { m with startDateTime := some (isoformat sdt), startDate := none }
      else
        some { m with startDateTime := some (isoformat sdt), startDate := none,
                      endDateTime := some (isoformat (addOneHour sdt)), endDate := none }
  else if truthy c.date then
    match
      (match m.startDateTime with
       | some s =>
         match strptime_dt new_date (strSlice s 11 16) with
         | some sdt => some { m with startDateTime := some (isoformat sdt), startDate := none }
         | none => none
       | none => some m) with
    | none => none
    | some m1 =>
      match m.endDateTime with
      | some s =>
        match strptime_dt new_date (strSlice s 11 16) with
        | some edt => some { m1 with endDateTime := some (isoformat edt), endDate := none }
        | none => none
      | none => some m1
  else some m

/-- Explicit end-time override of _update. -/
def edit_stage_end (m : GEvent) (new_date : String) (c : Changes) : Option GEvent :=
  if truthy c.end_time then
    match strptime_dt new_date (tval c.end_time) with
    | some edt => some { m with endDateTime := some (isoformat edt), endDate := none }
    | none => none
  else some m

/-- Body of edit_event._update after the event was matched: apply title,
date/time and description changes in source order. -/
def edit_apply (matched : GEvent) (date : String) (c : Changes) : Option GEvent :=
  match edit_stage_start (apply_title_change matched c) (new_date_of date c) c with
  | none => none
  | some m2 =>
    match edit_stage_end m2 (new_date_of date c) c with
    | none => none
    | some m3 => some (apply_descr_change m3 c)

/- ───────────────────────── add_event (calendar_service.add_event) ── -/

/-- The event body built by add_event._insert; None models the ValueError
raised by strptime on an invalid date or time (no clamping here). -/
def add_event_body (title date start_time : String) (end_time : Option String)
    (description : Option String) : Option GEvent :=
  match strptime_dt date start_time with
  | none => none
  | some sdt =>
    let endO : Option DateTimeHM :=
      match end_time with
      | some et => (strptime_dt date et).map id
      | none => some (addOneHour sdt)
    match endO with
    | none => none
    | some edt =>
      some { summary := some title
             startDateTime := some (isoformat sdt)
             endDateTime := some (isoformat edt)
             description := description }

/-- Outcome of add_event as seen by the caller: on an exception the generic
failure message, otherwise success with the html link of the inserted event
(the remote link is an oracle argument). -/
def add_event_result (title date start_time : String) (end_time : Option String)
    (description : Option String) (link : String) : Bool × String :=
  match add_event_body title date start_time end_time description with
  | some _ => (true, link)
  | none => (false, "알 수 없는 오류가 발생했습니다.")

/- ───────────────────────── conversation history (nlp_service) ───────────── -/

/-- The raw tool-call dict stored in an assistant history entry. -/
structure ToolCallRaw where
  id : String
  name : String
  arguments : String
deriving DecidableEq

/-- One entry of a chat conversation history, mirroring the four dict shapes
appended by nlp_service. -/
inductive HistEntry where
  | user (content : String)
  | assistant (content : String)
  | assistantToolCall (tc : ToolCallRaw)
  | toolResult (tool_call_id : String) (content : String)
deriving DecidableEq

/-- nlp_service.MAX_HISTORY. -/
def MAX_HISTORY : Nat := 50

/-- nlp_service._trim_history: keep only the last MAX_HISTORY entries when
the history is non-empty and longer than the cap. -/
def trim_history (h : List HistEntry) : List HistEntry :=
  if !h.isEmpty && decide (h.length > MAX_HISTORY) then h.drop (h.length - MAX_HISTORY) else h

/-- The process-wide per-chat history map. -/
def HistStore : Type := Int → List HistEntry

/-- The empty history store. -/
def emptyHist : HistStore := fun _ => []

/-- One history-mutating call: chat id plus the entry the mutator appends. -/
structure HistOp where
  chat : Int
  entry : HistEntry

/-- add_user_message. -/
def opUser (chat : Int) (content : String) : HistOp := ⟨chat, .user content⟩

/-- add_assistant_message. -/
def opAssistant (chat : Int) (content : String) : HistOp := ⟨chat, .assistant content⟩

/-- add_assistant_tool_call. -/
def opToolCall (chat : Int) (tc : ToolCallRaw) : HistOp := ⟨chat, .assistantToolCall tc⟩

/-- add_tool_result. -/
def opToolResult (chat : Int) (id content : String) : HistOp := ⟨chat, .toolResult id content⟩

/-- Each mutator appends its entry to the history of its chat and trims. -/
def applyOp (s : HistStore) (op : HistOp) : HistStore :=
  fun c => if c = op.chat then trim_history (s c ++ [op.entry]) else s c

/-- A sequence of history mutations applied from the empty store. -/
def applyOps (ops : List HistOp) : HistStore := ops.foldl applyOp emptyHist

/-- Every entry ever appended for a chat, in order (no trimming). -/
def chatLog (ops : List HistOp) (c : Int) : List HistEntry :=
  (ops.filter (fun op => op.chat = c)).map (fun op => op.entry)

/-- The suffix of the last MAX_HISTORY elements of a list. -/
def lastCap (l : List HistEntry) : List HistEntry := l.drop (l.length - MAX_HISTORY)

/- ───────────────────────── geo_service ───────────────────────── -/

/-- Hexadecimal digit (uppercase), for percent encoding. -/
def hexDigit (n : Nat) : String :=
  String.singleton (Char.ofNat (if n < 10 then 48 + n else 55 + n))

/-- Percent-encode one UTF-8 byte as urllib.parse.quote does with the
default safe set: unreserved characters and the slash pass through. -/
def quoteByte (b : UInt8) : String :=
  let n := b.toNat
  if (65 ≤ n ∧ n ≤ 90) ∨ (97 ≤ n ∧ n ≤ 122) ∨ (48 ≤ n ∧ n ≤ 57)
      ∨ n = 45 ∨ n = 46 ∨ n = 95 ∨ n = 126 ∨ n = 47 then
    String.singleton (Char.ofNat n)
  else
    "%" ++ hexDigit (n / 16) ++ hexDigit (n % 16)

/-- urllib.parse.quote over the UTF-8 bytes of a string. -/
def quote (s : String) : String :=
  String.join (s.toUTF8.data.toList.map quoteByte)

/-- geo_service.build_directions_url.  The float coordinates are abstracted
by their decimal renderings, since the function only interpolates them into
the URL.  It percent-encodes dest_name into encoded_name but never uses it. -/
def build_directions_url (start_lat start_lng dest_lat dest_lng : String)
    (dest_name : String) : String :=
  let _encoded_name := quote dest_name
  "https://www.google.com/maps/dir/" ++ start_lat ++ "," ++ start_lng ++ "/"
    ++ dest_lat ++ "," ++ dest_lng ++ "/"

/- ───────────────────────── navigation (telegram_bot) ───────────────────── -/

/-- A pending navigation request stashed per chat by _exec_navigate. -/
structure PendingNav where
  destination : String
  lat : String
  lng : String
  address : String
deriving DecidableEq

/-- The _pending_navigation map. -/
def NavStore : Type := Int → Option PendingNav

/-- Reply of telegram_bot.handle_location when no request is pending. -/
def noNavReply : String := "길찾기 요청이 없습니다. 먼저 목적지를 알려주세요."

/-- The directions message sent after a location share. -/
def navReply (p : PendingNav) (locLat locLng : String) : String :=
  "🗺️ " ++ p.destination ++ " 길찾기\n\n📍 출발: 현재 위치\n📍 도착: " ++ p.address
    ++ "\n\n👉 " ++ build_directions_url locLat locLng p.lat p.lng p.destination

/-- telegram_bot.handle_location: pop the pending request for the chat; with
none pending reply that there is nothing to navigate to (leaving the map
unchanged), otherwise the entry is removed and the directions reply built
from it. -/
def handle_location (pending : NavStore) (chat : Int) (locLat locLng : String) :
    NavStore × String :=
  match pending chat with
  | none => (pending, noNavReply)
  | some p => (fun c => if c = chat then none else pending c, navReply p locLat locLng)

/- ───────────────────────── credential store (calendar_service) ──────────── -/

/-- A stored OAuth record as google.oauth2 Credentials sees it. -/
structure StoredCreds where
  hasAccessToken : Bool
  expired : Bool
  hasRefreshToken : Bool
  payload : Nat
deriving DecidableEq

/-- Credentials.valid of the google-auth SDK: a token is present and not
expired. -/
def StoredCreds.isValid (c : StoredCreds) : Bool := c.hasAccessToken && !c.expired

/-- Observable outcome of calendar_service._load_credentials. -/
structure LoadOutcome where
  result : Option StoredCreds
  stored : Option StoredCreds
  refreshCalls : Nat
deriving DecidableEq

/-- calendar_service._load_credentials over one stored record.  The remote
refresh is an oracle: some c means the refresh succeeded and produced c,
none means it raised RefreshError.  A successful refresh is saved back
before the credential is returned; a failed or impossible refresh deletes
the token file and yields absence. -/
def load_credentials (stored : Option StoredCreds) (refreshOutcome : Option StoredCreds) :
    LoadOutcome :=
  match stored with
  | none => ⟨none, none, 0⟩
  | some c =>
    if c.isValid then ⟨some c, some c, 0⟩
    else if c.expired && c.hasRefreshToken then
      match refreshOutcome with
      | some c2 => ⟨some c2, some c2, 1⟩
      | none => ⟨none, none, 1⟩
    else ⟨none, none, 0⟩

/-- The tokens directory as an association list in glob order. -/
def TokenStore : Type := List (Int × StoredCreds)

/-- calendar_service._token_path existence plus file read. -/
def lookupStore (store : TokenStore) (chat : Int) : Option StoredCreds :=
  (store.find? (fun p => p.1 = chat)).map (fun p => p.2)

/-- calendar_service._get_any_valid_creds: walk every authenticated chat id
and return the first credential that loads, regardless of who asked. -/
def get_any_valid_creds (store : TokenStore) (oracle : Int → Option StoredCreds) :
    Option StoredCreds :=
  match store with
  | [] => none
  | (cid, rec0) :: rest =>
    match (load_credentials (some rec0) (oracle cid)).result with
    | some c => some c
    | none => get_any_valid_creds rest oracle

/-- calendar_service.get_today_events: no chat argument; with no loadable
credential anywhere it returns the empty list, otherwise the remote items
(an oracle argument). -/
def get_today_events_result (store : TokenStore) (oracle : Int → Option StoredCreds)
    (remoteItems : List GEvent) : List GEvent :=
  match get_any_valid_creds store oracle with
  | none => []
  | some _ => remoteItems

/-- calendar_service.get_week_events has the same credential behaviour. -/
def get_week_events_result (store : TokenStore) (oracle : Int → Option StoredCreds)
    (remoteItems : List GEvent) : List GEvent :=
  match get_any_valid_creds store oracle with
  | none => []
  | some _ => remoteItems

/-- Outer shell of calendar_service.delete_event: load the requesting chat
credential (auth-expired message on absence), then match and delete. -/
def delete_event_result (store : TokenStore) (oracle : Int → Option StoredCreds)
    (chat : Int) (title : String) (start_time : Option String)
    (dayEvents : List GEvent) : Bool × String :=
  match (load_credentials (lookupStore store chat) (oracle chat)).result with
  | none => (false, "인증이 만료되었습니다. /start로 다시 인증해주세요.")
  | some _ =>
    match delete_core dayEvents title start_time with
    | (_, some err) => (false, err)
    | (some t, none) => (true, t)
    | (none, none) => (false, "알 수 없는 오류가 발생했습니다.")

/- ───────────────────────── formatters (telegram_bot) ───────────────────── -/

/-- Text after the first colon of a line (Python line.split(":", 1)[1]). -/
def afterFirstColon (s : String) : String :=
  match splitChar ':' s with
  | [] => ""
  | [_] => ""
  | _ :: rest => String.intercalate ":" rest

/-- telegram_bot._extract_location: the location field, else the value of a
description line starting with the Korean location label. -/
def extract_location (e : GEvent) : String :=
  let location := e.location.getD ""
  if !location.isEmpty then location
  else
    let description := e.description.getD ""
    match (splitChar '\n' description).find?
        (fun line =>
          let l := pyStrip line
          isPrefixL "장소:".data l.data || isPrefixL "장소 :".data l.data) with
    | some line => pyStrip (afterFirstColon (pyStrip line))
    | none => ""

/-- telegram_bot._event_time: (date string, time string) of an event; timed
events use slices of the dateTime, all-day events render a span when longer
than one day. -/
def event_time (e : GEvent) : String × String :=
  match e.startDateTime with
  | some s => (strSlice s 0 10, strSlice s 11 16)
  | none =>
    let sd := (match e.startDate with | some v => v | none => "")
    let ed := (match e.endDate with | some v => v | none => "")
    if !sd.isEmpty ∧ !ed.isEmpty then
      match strptime_date sd, strptime_date ed with
      | some s, some en =>
        if dayNumber s + 1 < dayNumber en then
          let pe := prevDay en
          (sd, strSlice sd 5 10 ++ "~" ++ pad2 pe.month ++ "-" ++ pad2 pe.day ++ " 종일")
        else (sd, "종일")
      | _, _ => (sd, "종일")
    else (sd, "종일")

/-- telegram_bot._event_detail: location and residual description lines. -/
def event_detail (e : GEvent) : String :=
  let location := extract_location e
  let description := e.description.getD ""
  let parts1 : List String := if !location.isEmpty then ["📍 " ++ location] else []
  let parts2 : List String :=
    if !description.isEmpty then
      let descLines := (splitChar '\n' description).filter
        (fun ln => !(isPrefixL "장소:".data (pyStrip ln).data || isPrefixL "장소 :".data (pyStrip ln).data))
      let remaining := pyStrip (String.intercalate "\n" descLines)
      if !remaining.isEmpty then ["💬 " ++ remaining] else []
    else []
  String.intercalate "\n    " (parts1 ++ parts2)

/-- One numbered line of format_search_results plus its optional detail. -/
def search_result_lines (i : Nat) (e : GEvent) : List String :=
  let summary := e.summary.getD "(제목 없음)"
  let (dateStr, timeStr) := event_time e
  let line := toString i ++ ". 📅 " ++ dateStr ++ " 🕐 " ++ timeStr ++ " - " ++ summary
  let detail := event_detail e
  if !detail.isEmpty then [line, "    " ++ detail] else [line]

/-- telegram_bot.format_search_results. -/
def format_search_results (events : List GEvent) (keyword : Option String) : String :=
  if events.isEmpty then
    "🔍 검색 결과가 없습니다." ++ (if truthy keyword then " (\"" ++ tval keyword ++ "\")" else "")
  else
    let header := "🔍 검색 결과"
      ++ (if truthy keyword then " \"" ++ tval keyword ++ "\"" else "")
      ++ " (" ++ toString events.length ++ "건):\n"
    let body := (events.enum.map (fun p => search_result_lines (p.1 + 1) p.2)).flatten
    String.intercalate "\n" (header :: body)

/- ───────────── keyword-search follow-up filter (telegram_bot / nlp_service) ── -/

/-- Maximal runs of consecutive decimal digits, as re.findall r"\d+". -/
def digitRunsAux : List Char → List Char → List (List Char)
  | [], cur => if cur.isEmpty then [] else [cur.reverse]
  | c :: rest, cur =>
    if c.isDigit then digitRunsAux rest (c :: cur)
    else if cur.isEmpty then digitRunsAux rest []
    else cur.reverse :: digitRunsAux rest []

/-- Numeric values of the digit runs of a string. -/
def findallDigits (s : String) : List Nat :=
  (digitRunsAux s.data []).map
    (fun ds => ds.foldl (fun a c => a * 10 + (c.toNat - 48)) 0)

/-- Index filtering of handle_text_message: with the no-match marker in the
model reply nothing is kept; otherwise each number n selects candidate n-1
when that zero-based index is in range. -/
def filter_by_indices (gptIndices : String) (raws : List GEvent) : List GEvent :=
  if strContains gptIndices "없음" then []
  else
    (findallDigits gptIndices).filterMap
      (fun n => if 1 ≤ n ∧ n ≤ raws.length then raws.get? (n - 1) else none)

/-- The index-filter instruction string built in handle_text_message. -/
def filter_instruction (count : Nat) (keyword : String) : String :=
  "위 " ++ toString count ++ "개 일정 목록에서 \"" ++ keyword
    ++ "\"와 관련된 일정의 번호만 쉼표로 답변하세요. 예: \"1,3,5\". 없으면 \"없음\". "
    ++ "제목이나 설명에 \"" ++ keyword ++ "\"가 포함된 일정은 반드시 포함하세요. "
    ++ "의미적으로 동일한 주제인 일정도 포함하되, "
    ++ "단순히 비슷한 글자가 들어간 일정(예: 노사누리≠노동부, 노사누리≠노무사회)은 제외하세요."

/-- Modelled from the spec: get_followup_response is invoked from
telegram_bot.py but its definition is not present in src/app/nlp_service.py.
Per the spec it re-sends the chat conversation history with the optional
instruction appended and returns the free-text reply of the completion
endpoint, which is abstracted here as an oracle from message list to text. -/
def get_followup_response (history : List HistEntry) (instruction : Option String)
    (oracle : List HistEntry → String) : String :=
  oracle (history ++ (match instruction with | some i => [HistEntry.user i] | none => []))

/-- Observable outcome of the query branch of handle_text_message. -/
structure QueryOutcome where
  followupCalled : Bool
  shownEvents : List GEvent
  reply : String
deriving DecidableEq

/-- Query branch of telegram_bot.handle_text_message for search_events: only
when a keyword is present and the fetched candidate list is non-empty does
it ask the extractor for the relevant indices and reply with the filtered
listing; otherwise the executor reply is sent unchanged. -/
def handle_query_search (history : List HistEntry) (oracle : List HistEntry → String)
    (keyword : Option String) (rawEvents : List GEvent) (execReply : String) :
    QueryOutcome :=
  let hasKeyword := truthy keyword
  if hasKeyword && !rawEvents.isEmpty then
    let kw := tval keyword
    let instr := filter_instruction rawEvents.length kw
    let gptIndices := get_followup_response history (some instr) oracle
    let filtered := filter_by_indices gptIndices rawEvents
    ⟨true, filtered, format_search_results filtered (some kw)⟩
  else ⟨false, rawEvents, execReply⟩

/- ───────────── ranged add operations (spec-modelled) and dispatcher ──────── -/

/-- Dates obtained by stepping n times from d (d itself included). -/
def dateListGo : CalDate → Nat → List CalDate
  | _, 0 => []
  | d, n + 1 => d :: dateListGo (nextDay d) n

/-- All dates of the inclusive range [f, t]. -/
def dateRange (f t : CalDate) : List CalDate :=
  dateListGo f (dayNumber t + 1 - dayNumber f)

/-- Result of the modelled add_events_by_range. -/
structure RangeAddOutcome where
  dates : List CalDate
  events : List GEvent
  count : Nat
  error : String
deriving DecidableEq

/-- Modelled from the spec: add_events_by_range is called from
telegram_bot.py but its definition is not present in
src/app/calendar_service.py.  Per the spec it creates one event per date in
the inclusive range from date_from to date_to, with the given start time,
and returns a count together with an error message; dates are clamped as
all date arithmetic of the spec is. -/
def add_events_by_range (title date_from date_to start_time : String)
    (end_time description : Option String) : RangeAddOutcome :=
  match safe_parse_date date_from, safe_parse_date date_to with
  | some f, some t =>
    let ds := dateRange f t
    let evs := ds.map (fun d =>
      { summary := some title
        startDateTime := some (fmtDate d ++ "T" ++ start_time ++ ":00")
        description := description : GEvent })
    ⟨ds, evs, evs.length, ""⟩
  | _, _ => ⟨[], [], 0, "알 수 없는 오류가 발생했습니다."⟩

/-- Result of the modelled add_multiday_event. -/
structure MultiAddOutcome where
  events : List GEvent
  ok : Bool
  error : String
deriving DecidableEq

/-- Modelled from the spec: add_multiday_event is called from
telegram_bot.py but its definition is not present in
src/app/calendar_service.py.  Per the spec it creates a single all-day
event spanning the inclusive range; the Google all-day convention of an
exclusive end date (the day after date_to) is used. -/
def add_multiday_event (title date_from date_to : String)
    (description : Option String) : MultiAddOutcome :=
  match safe_parse_date date_from, safe_parse_date date_to with
  | some f, some t =>
    ⟨[{ summary := some title
        startDate := some (fmtDate f)
        endDate := some (fmtDate (nextDay t))
        description := description : GEvent }], true, ""⟩
  | _, _ => ⟨[], false, "알 수 없는 오류가 발생했습니다."⟩

/-- Arguments of the extractor calls for the two ranged add operations. -/
structure RangeArgs where
  title : String
  date_from : String
  date_to : String
  start_time : String := ""
  end_time : Option String := none
  location : Option String := none
  description : Option String := none

/-- Optional suffix line of a confirmation reply. -/
def optLine (label : String) (o : Option String) : String :=
  if truthy o then "\n" ++ label ++ tval o else ""

/-- telegram_bot._exec_add_events_by_range: invoke the calendar client and
format a success reply with the count, or a failure reply with the error. -/
def exec_add_events_by_range (a : RangeArgs) : String :=
  if (add_events_by_range a.title a.date_from a.date_to a.start_time
      a.end_time a.description).count > 0 then
    "✅ " ++ toString (add_events_by_range a.title a.date_from a.date_to a.start_time
        a.end_time a.description).count
      ++ "개 일정이 추가되었습니다!\n\n📅 " ++ a.date_from ++ " ~ " ++ a.date_to
      ++ "\n🕐 " ++ (a.start_time ++ (if truthy a.end_time then " - " ++ tval a.end_time else ""))
      ++ "\n📝 " ++ a.title
      ++ optLine "📍 " a.location ++ optLine "💬 " a.description
  else
    "❌ 일정 추가 실패\n" ++ (add_events_by_range a.title a.date_from a.date_to
      a.start_time a.end_time a.description).error

/-- telegram_bot._exec_add_multiday_event. -/
def exec_add_multiday_event (a : RangeArgs) : String :=
  if (add_multiday_event a.title a.date_from a.date_to a.description).ok then
    "✅ 일정이 추가되었습니다!\n\n📅 " ++ a.date_from ++ " ~ " ++ a.date_to
      ++ "\n📝 " ++ a.title
      ++ optLine "📍 " a.location ++ optLine "💬 " a.description
  else
    "❌ 일정 추가 실패\n" ++ (add_multiday_event a.title a.date_from a.date_to
      a.description).error

/-- The operation names of telegram_bot.FUNCTION_REGISTRY. -/
def FUNCTION_REGISTRY_names : List String :=
  ["add_event", "add_events_by_range", "add_multiday_event", "delete_event",
   "delete_events_by_range", "edit_event", "get_today_events", "get_week_events",
   "search_events", "navigate"]

/-- Dispatch of an extractor call naming one of the two ranged add
operations: handle_text_message looks the name up in FUNCTION_REGISTRY and
runs the executor; an unknown name yields no executor. -/
def dispatch_range_call (fnName : String) (a : RangeArgs) : Option String :=
  if fnName = "add_events_by_range" then some (exec_add_events_by_range a)
  else if fnName = "add_multiday_event" then some (exec_add_multiday_event a)
  else none

/- ═════════════════════════ theorems ═════════════════════════ -/

/- ── calendar arithmetic support ── -/

theorem monthLen_pos (leap : Bool) (m : Nat) : 1 ≤ monthLen leap m := by
  unfold monthLen
  split
  · split <;> omega
  · split <;> omega

theorem daysBeforeMonth_succ (leap : Bool) (m : Nat) (h1 : 1 ≤ m) (h2 : m ≤ 11) :
    daysBeforeMonth leap (m + 1) = daysBeforeMonth leap m + monthLen leap m := by
  interval_cases m <;> cases leap <;> decide

theorem leapsBefore_succ (k : Nat) :
    leapsBefore (k + 1) = leapsBefore k + (if isLeap (k + 1) then 1 else 0) := by
  unfold leapsBefore isLeap
  by_cases h4 : (k + 1) % 4 = 0 <;> by_cases h100 : (k + 1) % 100 = 0 <;>
    by_cases h400 : (k + 1) % 400 = 0 <;> simp [h4, h100, h400] <;> omega

theorem dayNumber_nextDay (d : CalDate) (h : d.valid) :
    dayNumber (nextDay d) = dayNumber d + 1 := by
  obtain ⟨y, m, day⟩ := d
  obtain ⟨hy, hm1, hm2, hd1, hd2⟩ := h
  dsimp only at hy hm1 hm2 hd1 hd2
  unfold nextDay
  dsimp only
  split
  · unfold dayNumber
    dsimp only
    omega
  · rename_i hnd
    split
    · rename_i hm
      unfold dayNumber
      dsimp only
      rw [daysBeforeMonth_succ (isLeap y) m hm1 (by omega)]
      unfold daysInMonth at hnd hd2
      omega
    · rename_i hm
      have hm12 : m = 12 := by omega
      subst hm12
      have hday : day = 31 := by
        unfold daysInMonth monthLen at hnd hd2
        simp at hnd hd2
        omega
      subst hday
      obtain ⟨k, rfl⟩ : ∃ k, y = k + 1 := ⟨y - 1, by omega⟩
      unfold dayNumber
      dsimp only
      simp only [Nat.add_sub_cancel]
      rw [leapsBefore_succ k]
      have h1 : daysBeforeMonth (isLeap (k + 1 + 1)) 1 = 0 := by
        simp [daysBeforeMonth]
      have h12 : daysBeforeMonth (isLeap (k + 1)) 12
          = 334 + (if isLeap (k + 1) then 1 else 0) := by
        unfold daysBeforeMonth
        split <;> simp_all
      rw [h1, h12]
      split <;> omega

theorem nextDay_valid (d : CalDate) (h : d.valid) : (nextDay d).valid := by
  obtain ⟨y, m, day⟩ := d
  obtain ⟨hy, hm1, hm2, hd1, hd2⟩ := h
  dsimp only at hy hm1 hm2 hd1 hd2
  unfold nextDay
  dsimp only
  split
  · unfold CalDate.valid
    dsimp only
    omega
  · split
    · unfold CalDate.valid
      dsimp only
      have hp := monthLen_pos (isLeap y) (m + 1)
      unfold daysInMonth
      omega
    · unfold CalDate.valid
      dsimp only
      have hp := monthLen_pos (isLeap (y + 1)) 1
      unfold daysInMonth
      omega

theorem addOneHour_toMinutes (dt : DateTimeHM) (hd : dt.date.valid)
    (hh : dt.time.hour ≤ 23) :
    toMinutes (addOneHour dt) = toMinutes dt + 60 := by
  unfold addOneHour
  split
  · unfold toMinutes; simp only; omega
  · rename_i hlt
    unfold toMinutes
    simp only
    rw [dayNumber_nextDay dt.date hd]
    omega

theorem strptime_date_valid {s : String} {d : CalDate}
    (h : strptime_date s = some d) : d.valid := by
  unfold strptime_date at h
  split at h
  · split at h
    · split at h
      · rename_i hc
        cases h
        exact ⟨hc.1, hc.2.2.1, hc.2.2.2.1, hc.2.2.2.2.1, hc.2.2.2.2.2⟩
      · exact absurd h (by simp)
    all_goals exact absurd h (by simp)
  · exact absurd h (by simp)

theorem parse_time_bounds {s : String} {t : TimeHM}
    (h : parse_time s = some t) : t.hour ≤ 23 ∧ t.minute ≤ 59 := by
  unfold parse_time at h
  split at h
  · split at h
    · split at h
      · rename_i hc
        cases h
        exact hc
      · exact absurd h (by simp)
    all_goals exact absurd h (by simp)
  · exact absurd h (by simp)

theorem strptime_dt_valid {a b : String} {dt : DateTimeHM}
    (h : strptime_dt a b = some dt) :
    dt.date.valid ∧ dt.time.hour ≤ 23 := by
  unfold strptime_dt at h
  split at h
  · rename_i d t hd ht
    cases h
    exact ⟨strptime_date_valid hd, (parse_time_bounds ht).1⟩
  · exact absurd h (by simp)

theorem safe_parse_date_valid {s : String} {d : CalDate}
    (h : safe_parse_date s = some d) : d.valid := by
  unfold safe_parse_date at h
  split at h
  · split at h
    · split at h
      · rename_i hc
        simp only [] at h
        split at h
        · rename_i hdd
          cases h
          refine ⟨hc.1, hc.2.2.1, hc.2.2.2, hdd, ?_⟩
          exact Nat.min_le_right _ _
        · exact absurd h (by simp)
      · exact absurd h (by simp)
    all_goals exact absurd h (by simp)
  · exact absurd h (by simp)

theorem dateListGo_length (d : CalDate) (n : Nat) : (dateListGo d n).length = n := by
  induction n generalizing d with
  | zero => rfl
  | succ k ih => simp [dateListGo, ih]

theorem dateListGo_map_dayNumber (n : Nat) (d : CalDate) (h : d.valid) :
    (dateListGo d n).map dayNumber = List.range' (dayNumber d) n := by
  induction n generalizing d with
  | zero => rfl
  | succ k ih =>
    unfold dateListGo
    rw [List.map_cons, List.range'_succ, ih (nextDay d) (nextDay_valid d h),
      dayNumber_nextDay d h]

/- ── history support ── -/

theorem lastCap_length_le (l : List HistEntry) : (lastCap l).length ≤ MAX_HISTORY := by
  unfold lastCap MAX_HISTORY
  simp only [List.length_drop]
  omega

theorem trim_lastCap (l : List HistEntry) (a : HistEntry) :
    trim_history (lastCap l ++ [a]) = lastCap (l ++ [a]) := by
  unfold trim_history lastCap MAX_HISTORY
  by_cases hn : l.length ≤ 49
  · have h0 : l.length - 50 = 0 := by omega
    rw [h0, List.drop_zero]
    rw [if_neg]
    · have h1 : (l ++ [a]).length - 50 = 0 := by
        simp only [List.length_append, List.length_singleton]
        omega
      rw [h1, List.drop_zero]
    · simp only [Bool.and_eq_true, decide_eq_true_eq]
      rintro ⟨-, h2⟩
      simp only [List.length_append, List.length_singleton] at h2
      omega
  · have hlen : (List.drop (l.length - 50) l ++ [a]).length = 51 := by
      simp only [List.length_append, List.length_drop, List.length_singleton]
      omega
    have hne : (List.drop (l.length - 50) l ++ [a]).isEmpty = false := by
      rw [List.isEmpty_eq_false_iff_exists_mem]
      exact ⟨a, by simp⟩
    rw [if_pos]
    · rw [hlen]
      have h51 : (51 : Nat) - 50 = 1 := by norm_num
      rw [h51]
      simp only [List.length_append, List.length_singleton]
      have he : l.length + 1 - 50 = l.length - 50 + 1 := by omega
      rw [he]
      rw [List.drop_append_of_le_length (by simp only [List.length_drop]; omega),
        List.drop_drop, List.drop_append_of_le_length (by omega)]
    · rw [Bool.and_eq_true, decide_eq_true_eq]
      constructor
      · simp only [hne, Bool.not_false]
      · rw [hlen]
        omega

theorem applyOps_inv (ops : List HistOp) (s : HistStore) (L : Int → List HistEntry)
    (hs : ∀ c, s c = lastCap (L c)) :
    ∀ c, (ops.foldl applyOp s) c = lastCap (L c ++ chatLog ops c) := by
  induction ops generalizing s L with
  | nil =>
    intro c
    simp only [List.foldl_nil, chatLog, List.filter_nil, List.map_nil, List.append_nil]
    exact hs c
  | cons op ops ih =>
    intro c
    rw [List.foldl_cons]
    have step := ih (applyOp s op)
      (fun c => L c ++ (if op.chat = c then [op.entry] else []))
      (by
        intro c
        dsimp only
        unfold applyOp
        by_cases hc : c = op.chat
        · rw [if_pos hc, if_pos hc.symm, hs c, trim_lastCap]
        · rw [if_neg hc, if_neg (fun h => hc h.symm), List.append_nil]
          exact hs c) c
    rw [step]
    have hlog : chatLog (op :: ops) c
        = (if op.chat = c then [op.entry] else []) ++ chatLog ops c := by
      unfold chatLog
      rw [List.filter_cons]
      by_cases hc : op.chat = c
      · rw [if_pos (by simpa using hc), if_pos hc, List.map_cons, List.singleton_append]
      · rw [if_neg (by simpa using hc), if_neg hc, List.nil_append]
    rw [hlog, List.append_assoc]

/- ── claim theorems ── -/

/-- C10: build_directions_url returns exactly the base URL followed by the
start and destination coordinate segments, and the dest_name argument has
no effect on the result even though the function percent-encodes it. -/
theorem c10_build_directions_url_ignores_name
    (slat slng dlat dlng n1 n2 : String) :
    build_directions_url slat slng dlat dlng n1
      = "https://www.google.com/maps/dir/" ++ slat ++ "," ++ slng ++ "/"
        ++ dlat ++ "," ++ dlng ++ "/" ∧
    build_directions_url slat slng dlat dlng n1
      = build_directions_url slat slng dlat dlng n2 :=
  ⟨rfl, rfl⟩

/-- C6: under any sequence of the four history mutators, every chat history
stays within MAX_HISTORY entries, and it is exactly the suffix of the most
recent entries of everything appended for that chat, in order (FIFO). -/
theorem c6_history_cap_fifo (ops : List HistOp) (c : Int) :
    ((applyOps ops) c).length ≤ MAX_HISTORY ∧
    applyOps ops c = lastCap (chatLog ops c) := by
  have h := applyOps_inv ops emptyHist (fun _ => []) (fun _ => rfl) c
  unfold applyOps
  refine ⟨?_, ?_⟩
  · rw [h]
    exact lastCap_length_le _
  · rw [h]
    rfl

/-- C7: sharing a location with no pending navigation request replies that
there is nothing to navigate to and leaves the map unchanged; with a
pending request, the entry is removed and the directions reply built from
it, so a second share of the same chat finds nothing. -/
theorem c7_handle_location_consumes (pending : NavStore) (chat : Int)
    (la lo : String) :
    (pending chat = none → handle_location pending chat la lo = (pending, noNavReply)) ∧
    (∀ p, pending chat = some p →
      (handle_location pending chat la lo).2 = navReply p la lo ∧
      (handle_location pending chat la lo).1 chat = none ∧
      (handle_location ((handle_location pending chat la lo).1) chat la lo).2
        = noNavReply) := by
  constructor
  · intro h
    unfold handle_location
    rw [h]
  · intro p hp
    unfold handle_location
    rw [hp]
    refine ⟨rfl, ?_, ?_⟩
    · simp
    · simp

/-- C7 witness at a concrete pending map. -/
theorem c7_handle_location_consumes_witness :
    (handle_location (fun _ => none) 2 "0.0" "0.0" = ((fun _ => none), noNavReply)) ∧
    (handle_location (fun c => if c = 1 then some ⟨"서울역", "37.55", "126.97", "서울 중구"⟩ else none)
        1 "37.5" "127.0").2 = navReply ⟨"서울역", "37.55", "126.97", "서울 중구"⟩ "37.5" "127.0" ∧
    (handle_location ((handle_location (fun c => if c = 1 then some ⟨"서울역", "37.55", "126.97", "서울 중구"⟩ else none)
        1 "37.5" "127.0").1) 1 "37.5" "127.0").2 = noNavReply := by
  refine ⟨?_, ?_, ?_⟩
  · exact (c7_handle_location_consumes (fun _ => none) 2 "0.0" "0.0").1 rfl
  · exact ((c7_handle_location_consumes _ 1 "37.5" "127.0").2
      ⟨"서울역", "37.55", "126.97", "서울 중구"⟩ (by simp)).1
  · exact ((c7_handle_location_consumes _ 1 "37.5" "127.0").2
      ⟨"서울역", "37.55", "126.97", "서울 중구"⟩ (by simp)).2.2

/-- C8: loading a credential returns absence with no stored record; an
expired record with a refresh token triggers exactly one refresh attempt,
deleting the record and returning absence on failure and persisting the
refreshed credential before returning it on success; an invalid record
without a refresh token is deleted and absence returned. -/
theorem c8_load_credentials_lazy_refresh (c : StoredCreds) (ro : Option StoredCreds) :
    load_credentials none ro = ⟨none, none, 0⟩ ∧
    (c.expired = true → c.hasRefreshToken = true →
      (load_credentials (some c) ro).refreshCalls = 1 ∧
      (ro = none → load_credentials (some c) ro = ⟨none, none, 1⟩) ∧
      (∀ c2, ro = some c2 → load_credentials (some c) ro = ⟨some c2, some c2, 1⟩)) ∧
    (c.isValid = false → c.hasRefreshToken = false →
      load_credentials (some c) ro = ⟨none, none, 0⟩) := by
  refine ⟨rfl, ?_, ?_⟩
  · intro he hr
    have hv : c.isValid = false := by
      unfold StoredCreds.isValid
      rw [he]
      simp
    cases ro <;> simp [load_credentials, hv, he, hr]
  · intro hv hr
    simp [load_credentials, hv, hr]

/-- C8 witness at concrete records. -/
theorem c8_load_credentials_lazy_refresh_witness :
    load_credentials (some ⟨true, true, true, 7⟩) none = ⟨none, none, 1⟩ ∧
    load_credentials (some ⟨true, true, true, 7⟩) (some ⟨true, false, true, 8⟩)
      = ⟨some ⟨true, false, true, 8⟩, some ⟨true, false, true, 8⟩, 1⟩ ∧
    load_credentials (some ⟨false, false, false, 9⟩) none = ⟨none, none, 0⟩ := by
  refine ⟨?_, ?_, ?_⟩
  · exact ((c8_load_credentials_lazy_refresh ⟨true, true, true, 7⟩ none).2.1 rfl rfl).2.1 rfl
  · exact ((c8_load_credentials_lazy_refresh ⟨true, true, true, 7⟩
      (some ⟨true, false, true, 8⟩)).2.1 rfl rfl).2.2 _ rfl
  · exact (c8_load_credentials_lazy_refresh ⟨false, false, false, 9⟩ none).2.2 rfl rfl

/-- C5 (amended): the operations that parse dates through _safe_parse_date
clamp a day beyond the month length down to the last valid day and leave a
valid day unchanged; the claim as stated fails for the operations that use
strict strptime parsing (see the counterexample). -/
theorem c5_safe_parse_clamps (s ys ms ds : String) (rest : List String) (y m d : Nat)
    (hsplit : splitChar '-' s = ys :: ms :: ds :: rest)
    (hy : strToNat? ys = some y) (hm : strToNat? ms = some m)
    (hd : strToNat? ds = some d)
    (h1 : 1 ≤ y) (h2 : y ≤ 9999) (h3 : 1 ≤ m) (h4 : m ≤ 12) (h5 : 1 ≤ d) :
    safe_parse_date s = some ⟨y, m, min d (daysInMonth y m)⟩ ∧
    (d ≤ daysInMonth y m → safe_parse_date s = some ⟨y, m, d⟩) ∧
    (daysInMonth y m < d → safe_parse_date s = some ⟨y, m, daysInMonth y m⟩) := by
  have hdim : 1 ≤ daysInMonth y m := monthLen_pos (isLeap y) m
  have hmain : safe_parse_date s = some ⟨y, m, min d (daysInMonth y m)⟩ := by
    unfold safe_parse_date
    rw [hsplit]
    simp only [hy, hm, hd]
    rw [if_pos ⟨h1, h2, h3, h4⟩]
    show (if 1 ≤ min d (daysInMonth y m)
        then some (⟨y, m, min d (daysInMonth y m)⟩ : CalDate) else none) = _
    rw [if_pos (by omega : 1 ≤ min d (daysInMonth y m))]
  refine ⟨hmain, ?_, ?_⟩
  · intro hle
    rw [hmain, Nat.min_eq_left hle]
  · intro hlt
    rw [hmain, Nat.min_eq_right (by omega)]

/-- C5 witness: 2023-02-30 is clamped to 2023-02-28 and a valid day is left
unchanged by _safe_parse_date. -/
theorem c5_safe_parse_clamps_witness :
    safe_parse_date "2023-02-30" = some ⟨2023, 2, 28⟩ ∧
    safe_parse_date "2023-02-15" = some ⟨2023, 2, 15⟩ := by
  constructor
  · have h := (c5_safe_parse_clamps "2023-02-30" "2023" "02" "30" [] 2023 2 30
      (by decide) (by decide) (by decide) (by decide) (by decide) (by decide)
      (by decide) (by decide) (by decide)).2.2 (by decide)
    exact h.trans (by decide)
  · have h := (c5_safe_parse_clamps "2023-02-15" "2023" "02" "15" [] 2023 2 15
      (by decide) (by decide) (by decide) (by decide) (by decide) (by decide)
      (by decide) (by decide) (by decide)).2.1 (by decide)
    exact h

/-- C5 counterexample: add_event is a calendar operation taking a
YYYY-MM-DD date, yet a day beyond the month length is not clamped there:
strptime raises so the operation returns the generic failure instead of
inserting an event on the last day of February. -/
theorem c5_counterexample_add_event_no_clamp :
    add_event_body "회의" "2023-02-30" "15:00" none none = none ∧
    add_event_result "회의" "2023-02-30" "15:00" none none "link"
      = (false, "알 수 없는 오류가 발생했습니다.") := by
  constructor
  · decide
  · decide

/-- C3: _match_event selects in strict order: first any event whose stored
title and the supplied title are case-insensitive substrings of one another;
only with no title match and a supplied time of day, an event whose start
time equals the HH:MM exactly; only if neither matched and exactly one
candidate exists, that sole event; otherwise none, which delete_event turns
into the not-found failure. -/
theorem c3_match_event_stages (events : List GEvent) (title : String)
    (st : Option String) :
    match_event events title st = match_event_spec events title st ∧
    (match_event events title st = none →
      delete_core events title st
        = (none, some "해당 날짜에 일치하는 일정을 찾을 수 없습니다.")) := by
  constructor
  · by_cases he : events.isEmpty
    · have hnil : events = [] := List.isEmpty_iff.mp he
      subst hnil
      simp [match_event, match_event_spec]
    · cases hf : events.find? (title_matches title) with
      | some e =>
        have hex : ∃ x ∈ events, title_matches title x :=
          ⟨e, List.mem_of_find?_eq_some hf, List.find?_some hf⟩
        unfold match_event match_event_spec
        rw [if_neg (by simpa using he), hf, if_pos hex]
      | none =>
        have hnex : ¬ ∃ x ∈ events, title_matches title x := by
          rintro ⟨x, hx, hpx⟩
          exact absurd hpx (by simpa using (List.find?_eq_none.mp hf) x hx)
        unfold match_event match_event_spec
        rw [if_neg (by simpa using he), hf, if_neg hnex]
        by_cases hst : truthy st
        · cases hg : events.find? (time_matches (tval st)) with
          | some e2 =>
            have hex2 : truthy st = true ∧ ∃ x ∈ events, time_matches (tval st) x :=
              ⟨hst, e2, List.mem_of_find?_eq_some hg, List.find?_some hg⟩
            rw [if_pos hst, if_pos hex2]
          | none =>
            have hnex2 : ¬ (truthy st = true ∧ ∃ x ∈ events, time_matches (tval st) x) := by
              rintro ⟨-, x, hx, hpx⟩
              exact absurd hpx (by simpa using (List.find?_eq_none.mp hg) x hx)
            rw [if_pos hst, if_neg hnex2]
        · have hnex2 : ¬ (truthy st = true ∧ ∃ x ∈ events, time_matches (tval st) x) := by
            rintro ⟨h1, -⟩
            exact hst h1
          rw [if_neg (by simpa using hst), if_neg hnex2]
  · intro h
    unfold delete_core
    rw [h]

/-- C3 witness: two candidates, no title, time or sole-event match, so the
matcher returns nothing and delete reports the not-found failure. -/
theorem c3_match_event_stages_witness :
    delete_core [{ summary := some "점심" }, { summary := some "회의" }] "운동" none
      = (none, some "해당 날짜에 일치하는 일정을 찾을 수 없습니다.") :=
  (c3_match_event_stages [{ summary := some "점심" }, { summary := some "회의" }]
    "운동" none).2 (by decide)

/- ── edit support ── -/

theorem apply_title_change_fields (m : GEvent) (c : Changes) :
    (apply_title_change m c).startDateTime = m.startDateTime ∧
    (apply_title_change m c).endDateTime = m.endDateTime := by
  unfold apply_title_change
  split <;> exact ⟨rfl, rfl⟩

theorem apply_descr_change_fields (m : GEvent) (c : Changes) :
    (apply_descr_change m c).startDateTime = m.startDateTime ∧
    (apply_descr_change m c).endDateTime = m.endDateTime := by
  unfold apply_descr_change
  split <;> exact ⟨rfl, rfl⟩

theorem strptime_dt_parts {a b : String} {dt : DateTimeHM}
    (h : strptime_dt a b = some dt) :
    strptime_date a = some dt.date ∧ parse_time b = some dt.time := by
  unfold strptime_dt at h
  split at h
  · rename_i d t hd ht
    cases h
    exact ⟨hd, ht⟩
  · exact absurd h (by simp)

/-- C4: for a matched event being edited, a new start time without a new
end time makes the stored end the new start plus exactly one hour (60
minutes in the linear abstraction); a new date alone shifts the stored
start and end times of day onto the new date; an explicitly supplied end
time overrides the computed end. -/
theorem c4_edit_semantics (matched : GEvent) (date : String) (c : Changes) :
    (∀ sdt, truthy c.start_time = true → truthy c.end_time = false →
      strptime_dt (new_date_of date c) (tval c.start_time) = some sdt →
      ∃ r, edit_apply matched date c = some r ∧
        r.startDateTime = some (isoformat sdt) ∧
        r.endDateTime = some (isoformat (addOneHour sdt)) ∧
        toMinutes (addOneHour sdt) = toMinutes sdt + 60) ∧
    (∀ s0 e0 sdt edt, truthy c.start_time = false → truthy c.end_time = false →
      truthy c.date = true →
      matched.startDateTime = some s0 → matched.endDateTime = some e0 →
      strptime_dt (tval c.date) (strSlice s0 11 16) = some sdt →
      strptime_dt (tval c.date) (strSlice e0 11 16) = some edt →
      ∃ r, edit_apply matched date c = some r ∧
        r.startDateTime = some (isoformat sdt) ∧
        r.endDateTime = some (isoformat edt) ∧
        strptime_date (tval c.date) = some sdt.date ∧
        parse_time (strSlice s0 11 16) = some sdt.time ∧
        strptime_date (tval c.date) = some edt.date ∧
        parse_time (strSlice e0 11 16) = some edt.time) ∧
    (∀ m2 edt, truthy c.end_time = true →
      edit_stage_start (apply_title_change matched c) (new_date_of date c) c = some m2 →
      strptime_dt (new_date_of date c) (tval c.end_time) = some edt →
      ∃ r, edit_apply matched date c = some r ∧
        r.endDateTime = some (isoformat edt)) := by
  refine ⟨?_, ?_, ?_⟩
  · intro sdt hst hnet hparse
    have hv := strptime_dt_valid hparse
    unfold edit_apply
    simp only [edit_stage_start, hst, hnet, hparse, if_true, Bool.false_eq_true, if_false]
    simp only [edit_stage_end, hnet, Bool.false_eq_true, if_false]
    refine ⟨_, rfl, ?_, ?_, addOneHour_toMinutes sdt hv.1 hv.2⟩
    · rw [(apply_descr_change_fields _ c).1]
    · rw [(apply_descr_change_fields _ c).2]
  · intro s0 e0 sdt edt hst hnet hdt hs0 he0 hp1 hp2
    have hps := strptime_dt_parts hp1
    have hpe := strptime_dt_parts hp2
    have hnd : new_date_of date c = tval c.date := by
      unfold new_date_of
      rw [hdt]
      simp
    unfold edit_apply
    rw [hnd]
    simp only [edit_stage_start, hst, hdt, Bool.false_eq_true, if_false, if_true,
      (apply_title_change_fields matched c).1, (apply_title_change_fields matched c).2,
      hs0, he0, hp1, hp2]
    simp only [edit_stage_end, hnet, Bool.false_eq_true, if_false]
    refine ⟨_, rfl, ?_, ?_, hps.1, hps.2, hpe.1, hpe.2⟩
    · rw [(apply_descr_change_fields _ c).1]
    · rw [(apply_descr_change_fields _ c).2]
  · intro m2 edt het hstage hparse
    unfold edit_apply
    rw [hstage]
    simp only [edit_stage_end, het, if_true, hparse]
    refine ⟨_, rfl, ?_⟩
    rw [(apply_descr_change_fields _ c).2]

/-- C4 witness: a 23:30 start without an end rolls the end over midnight to
00:30 next day; a bare date change shifts 15:00/16:00 onto the new date; an
explicit end time overrides the computed one. -/
theorem c4_edit_semantics_witness :
    (∃ r, edit_apply
        { summary := some "회의", startDateTime := some "2025-10-13T15:00:00+09:00",
          endDateTime := some "2025-10-13T16:00:00+09:00" }
        "2025-10-13" { start_time := some "23:30" } = some r ∧
      r.startDateTime = some (isoformat ⟨⟨2025, 10, 13⟩, ⟨23, 30⟩⟩) ∧
      r.endDateTime = some (isoformat (addOneHour ⟨⟨2025, 10, 13⟩, ⟨23, 30⟩⟩)) ∧
      toMinutes (addOneHour ⟨⟨2025, 10, 13⟩, ⟨23, 30⟩⟩)
        = toMinutes ⟨⟨2025, 10, 13⟩, ⟨23, 30⟩⟩ + 60) ∧
    (∃ r, edit_apply
        { summary := some "회의", startDateTime := some "2025-10-13T15:00:00+09:00",
          endDateTime := some "2025-10-13T16:00:00+09:00" }
        "2025-10-13" { date := some "2025-10-20" } = some r ∧
      r.startDateTime = some (isoformat ⟨⟨2025, 10, 20⟩, ⟨15, 0⟩⟩) ∧
      r.endDateTime = some (isoformat ⟨⟨2025, 10, 20⟩, ⟨16, 0⟩⟩)) ∧
    (∃ r, edit_apply
        { summary := some "회의", startDateTime := some "2025-10-13T15:00:00+09:00",
          endDateTime := some "2025-10-13T16:00:00+09:00" }
        "2025-10-13" { start_time := some "16:00", end_time := some "18:30" } = some r ∧
      r.endDateTime = some (isoformat ⟨⟨2025, 10, 13⟩, ⟨18, 30⟩⟩)) := by
  refine ⟨?_, ?_, ?_⟩
  · exact (c4_edit_semantics
      { summary := some "회의", startDateTime := some "2025-10-13T15:00:00+09:00",
        endDateTime := some "2025-10-13T16:00:00+09:00" }
      "2025-10-13" { start_time := some "23:30" }).1
      ⟨⟨2025, 10, 13⟩, ⟨23, 30⟩⟩ (by decide) (by decide) (by decide)
  · obtain ⟨r, h1, h2, h3, -⟩ := (c4_edit_semantics
      { summary := some "회의", startDateTime := some "2025-10-13T15:00:00+09:00",
        endDateTime := some "2025-10-13T16:00:00+09:00" }
      "2025-10-13" { date := some "2025-10-20" }).2.1
      "2025-10-13T15:00:00+09:00" "2025-10-13T16:00:00+09:00"
      ⟨⟨2025, 10, 20⟩, ⟨15, 0⟩⟩ ⟨⟨2025, 10, 20⟩, ⟨16, 0⟩⟩
      (by decide) (by decide) (by decide) (by decide) (by decide) (by decide) (by decide)
    exact ⟨r, h1, h2, h3⟩
  · exact (c4_edit_semantics
      { summary := some "회의", startDateTime := some "2025-10-13T15:00:00+09:00",
        endDateTime := some "2025-10-13T16:00:00+09:00" }
      "2025-10-13" { start_time := some "16:00", end_time := some "18:30" }).2.2
      { summary := some "회의", startDateTime := some "2025-10-13T16:00:00",
        startDate := none, endDateTime := some "2025-10-13T16:00:00+09:00" }
      ⟨⟨2025, 10, 13⟩, ⟨18, 30⟩⟩ (by decide) (by decide) (by decide)

/-- C9 (amended): _get_any_valid_creds returns the first loadable credential
over all authenticated chats in directory order, independent of any
requesting chat; get_today_events and get_week_events use it and return an
empty list (not a message) when nothing loads; the per-chat operations such
as delete_event do load the requesting chat credential and fail with the
human-readable re-authentication message when it is absent. -/
theorem c9_credential_use (store : TokenStore) (oracle : Int → Option StoredCreds)
    (remote : List GEvent) (chat : Int) (title : String) (st : Option String)
    (dayEvents : List GEvent) :
    get_any_valid_creds store oracle
      = store.findSome? (fun p => (load_credentials (some p.2) (oracle p.1)).result) ∧
    (get_any_valid_creds store oracle = none →
      get_today_events_result store oracle remote = [] ∧
      get_week_events_result store oracle remote = []) ∧
    ((load_credentials (lookupStore store chat) (oracle chat)).result = none →
      delete_event_result store oracle chat title st dayEvents
        = (false, "인증이 만료되었습니다. /start로 다시 인증해주세요.")) := by
  refine ⟨?_, ?_, ?_⟩
  · induction store with
    | nil => rfl
    | cons p rest ih =>
      rw [List.findSome?_cons]
      unfold get_any_valid_creds
      cases h : (load_credentials (some p.2) (oracle p.1)).result with
      | some cr => rfl
      | none => exact ih
  · intro h
    unfold get_today_events_result get_week_events_result
    rw [h]
    exact ⟨rfl, rfl⟩
  · intro h
    unfold delete_event_result
    rw [h]

/-- C9 witness: an empty token store loads nothing, so the query operations
return empty lists and delete_event reports the re-authentication message. -/
theorem c9_credential_use_witness :
    get_today_events_result [] (fun _ => none) [{ summary := some "회의" }] = [] ∧
    delete_event_result [] (fun _ => none) 2 "회의" none []
      = (false, "인증이 만료되었습니다. /start로 다시 인증해주세요.") := by
  constructor
  · exact ((c9_credential_use [] (fun _ => none) [{ summary := some "회의" }] 2 "회의"
      none []).2.1 rfl).1
  · exact (c9_credential_use [] (fun _ => none) [{ summary := some "회의" }] 2 "회의"
      none []).2.2 rfl

/-- C9 counterexample: with two authenticated chats holding distinct valid
credentials, the today query invoked on behalf of chat 2 still runs with
the credential of chat 1, because get_today_events takes no chat argument
and _get_any_valid_creds returns the first credential that loads; and with
no credential at all the query returns an empty list rather than a
success/failure message. -/
theorem c9_counterexample_any_creds :
    get_any_valid_creds
      [(1, ⟨true, false, false, 1⟩), (2, ⟨true, false, false, 2⟩)] (fun _ => none)
      = some ⟨true, false, false, 1⟩ ∧
    (⟨true, false, false, 1⟩ : StoredCreds) ≠ ⟨true, false, false, 2⟩ ∧
    get_today_events_result [] (fun _ => none) [{ summary := some "회의" }] = [] := by
  refine ⟨?_, ?_, ?_⟩
  · decide
  · decide
  · decide

/- ── follow-up filter support ── -/

theorem filter_by_indices_subset (gpt : String) (raws : List GEvent) :
    ∀ e ∈ filter_by_indices gpt raws, e ∈ raws := by
  intro e he
  unfold filter_by_indices at he
  split at he
  · simp at he
  · rw [List.mem_filterMap] at he
    obtain ⟨n, -, hn⟩ := he
    split at hn
    · exact List.get?_mem hn
    · exact absurd hn (by simp)

/-- C2 (amended): on a keyword search whose candidate list is non-empty,
the dispatcher invokes get_followup_response, which re-sends the history
with the filter instruction appended as a user turn, filters the candidates
down to the indices in the model reply (the no-match marker keeps nothing,
every kept event comes from the fetched candidates) and replies with the
filtered listing.  The claim as stated fails for a keyword search with no
candidates (see the counterexample). -/
theorem c2_followup_filter (history : List HistEntry) (oracle : List HistEntry → String)
    (kw : String) (raws : List GEvent) (execReply : String)
    (hkw : kw ≠ "") (hr : raws ≠ []) :
    (handle_query_search history oracle (some kw) raws execReply).followupCalled = true ∧
    (handle_query_search history oracle (some kw) raws execReply).shownEvents
      = filter_by_indices
          (get_followup_response history (some (filter_instruction raws.length kw)) oracle)
          raws ∧
    (handle_query_search history oracle (some kw) raws execReply).reply
      = format_search_results
          (filter_by_indices
            (get_followup_response history (some (filter_instruction raws.length kw)) oracle)
            raws)
          (some kw) ∧
    get_followup_response history (some (filter_instruction raws.length kw)) oracle
      = oracle (history ++ [HistEntry.user (filter_instruction raws.length kw)]) ∧
    (∀ e ∈ (handle_query_search history oracle (some kw) raws execReply).shownEvents,
      e ∈ raws) ∧
    (strContains
        (get_followup_response history (some (filter_instruction raws.length kw)) oracle)
        "없음" = true →
      (handle_query_search history oracle (some kw) raws execReply).shownEvents = []) := by
  have hkwe : kw.isEmpty = false := by
    cases hcon : kw.isEmpty
    · rfl
    · exact absurd ((String.isEmpty_iff kw).mp hcon) hkw
  have hkwb : truthy (some kw) = true := by
    unfold truthy
    simp only [Option.getD_some, hkwe, Bool.not_false]
  have hrb : raws.isEmpty = false := by
    cases raws with
    | nil => exact absurd rfl hr
    | cons a l => rfl
  have hred : handle_query_search history oracle (some kw) raws execReply
      = ⟨true,
          filter_by_indices
            (get_followup_response history (some (filter_instruction raws.length kw)) oracle)
            raws,
          format_search_results
            (filter_by_indices
              (get_followup_response history (some (filter_instruction raws.length kw)) oracle)
              raws)
            (some (tval (some kw)))⟩ := by
    unfold handle_query_search
    rw [hkwb, hrb]
    rfl
  refine ⟨by rw [hred], by rw [hred], by rw [hred]; rfl, rfl, ?_, ?_⟩
  · rw [hred]
    exact filter_by_indices_subset _ _
  · intro hcontains
    rw [hred]
    unfold filter_by_indices
    rw [if_pos hcontains]

/-- C2 witness at a concrete search. -/
theorem c2_followup_filter_witness :
    (handle_query_search [] (fun _ => "2") (some "회의")
        [{ summary := some "점심" }, { summary := some "회의" }] "R").followupCalled
      = true ∧
    (handle_query_search [] (fun _ => "2") (some "회의")
        [{ summary := some "점심" }, { summary := some "회의" }] "R").shownEvents
      = filter_by_indices
          (get_followup_response []
            (some (filter_instruction 2 "회의")) (fun _ => "2"))
          [{ summary := some "점심" }, { summary := some "회의" }] := by
  constructor
  · exact (c2_followup_filter [] (fun _ => "2") "회의"
      [{ summary := some "점심" }, { summary := some "회의" }] "R"
      (by decide) (by decide)).1
  · exact (c2_followup_filter [] (fun _ => "2") "회의"
      [{ summary := some "점심" }, { summary := some "회의" }] "R"
      (by decide) (by decide)).2.1

/-- C2 counterexample: a keyword search whose remote fetch returned no
candidates does not invoke the follow-up filter at all, so the follow-up is
not invoked on every keyword search. -/
theorem c2_counterexample_no_candidates :
    truthy (some "회의") = true ∧
    (handle_query_search [] (fun _ => "1,2") (some "회의") [] "검색 결과 없음").followupCalled
      = false := by
  constructor
  · decide
  · decide

/-- C1 (spec-modelled calendar operations): dispatching an extractor call
named add_events_by_range runs the executor, which invokes the
spec-modelled calendar operation creating one event per date of the
inclusive range (the day numbers of the created dates are exactly the
consecutive run from date_from to date_to) and replies with the success
count; a call named add_multiday_event creates a single all-day event
spanning the range and replies with a success confirmation. -/
theorem c1_range_and_multiday_dispatch (a : RangeArgs) (f t : CalDate)
    (hf : safe_parse_date a.date_from = some f)
    (ht : safe_parse_date a.date_to = some t)
    (hle : dayNumber f ≤ dayNumber t) :
    dispatch_range_call "add_events_by_range" a = some (exec_add_events_by_range a) ∧
    dispatch_range_call "add_multiday_event" a = some (exec_add_multiday_event a) ∧
    "add_events_by_range" ∈ FUNCTION_REGISTRY_names ∧
    "add_multiday_event" ∈ FUNCTION_REGISTRY_names ∧
    (add_events_by_range a.title a.date_from a.date_to a.start_time
        a.end_time a.description).count = dayNumber t + 1 - dayNumber f ∧
    (add_events_by_range a.title a.date_from a.date_to a.start_time
        a.end_time a.description).dates.map dayNumber
      = List.range' (dayNumber f) (dayNumber t + 1 - dayNumber f) ∧
    (add_events_by_range a.title a.date_from a.date_to a.start_time
        a.end_time a.description).events
      = (add_events_by_range a.title a.date_from a.date_to a.start_time
          a.end_time a.description).dates.map
          (fun d =>
            { summary := some a.title
              startDateTime := some (fmtDate d ++ "T" ++ a.start_time ++ ":00")
              description := a.description }) ∧
    exec_add_events_by_range a
      = "✅ " ++ toString (dayNumber t + 1 - dayNumber f)
        ++ "개 일정이 추가되었습니다!\n\n📅 " ++ a.date_from ++ " ~ " ++ a.date_to
        ++ "\n🕐 " ++ (a.start_time
          ++ (if truthy a.end_time then " - " ++ tval a.end_time else ""))
        ++ "\n📝 " ++ a.title
        ++ optLine "📍 " a.location ++ optLine "💬 " a.description ∧
    (add_multiday_event a.title a.date_from a.date_to a.description).events
      = [{ summary := some a.title, startDate := some (fmtDate f),
           endDate := some (fmtDate (nextDay t)), description := a.description }] ∧
    (add_multiday_event a.title a.date_from a.date_to a.description).ok = true ∧
    exec_add_multiday_event a
      = "✅ 일정이 추가되었습니다!\n\n📅 " ++ a.date_from ++ " ~ " ++ a.date_to
        ++ "\n📝 " ++ a.title
        ++ optLine "📍 " a.location ++ optLine "💬 " a.description := by
  have hfv := safe_parse_date_valid hf
  have hn : (dateRange f t).length = dayNumber t + 1 - dayNumber f := by
    unfold dateRange
    exact dateListGo_length f _
  have hout : add_events_by_range a.title a.date_from a.date_to a.start_time
      a.end_time a.description
      = ⟨dateRange f t,
         (dateRange f t).map (fun d =>
           { summary := some a.title
             startDateTime := some (fmtDate d ++ "T" ++ a.start_time ++ ":00")
             description := a.description }),
         ((dateRange f t).map (fun d =>
           { summary := some a.title
             startDateTime := some (fmtDate d ++ "T" ++ a.start_time ++ ":00")
             description := a.description : GEvent })).length, ""⟩ := by
    unfold add_events_by_range
    rw [hf, ht]
  have hcount : (add_events_by_range a.title a.date_from a.date_to a.start_time
      a.end_time a.description).count = dayNumber t + 1 - dayNumber f := by
    rw [hout]
    dsimp only
    rw [List.length_map, hn]
  have hmout : add_multiday_event a.title a.date_from a.date_to a.description
      = ⟨[{ summary := some a.title, startDate := some (fmtDate f),
            endDate := some (fmtDate (nextDay t)), description := a.description }],
         true, ""⟩ := by
    unfold add_multiday_event
    rw [hf, ht]
  refine ⟨rfl, rfl, by decide, by decide, hcount, ?_, ?_, ?_, ?_, ?_, ?_⟩
  · rw [hout]
    unfold dateRange
    exact dateListGo_map_dayNumber _ f hfv
  · rw [hout]
  · unfold exec_add_events_by_range
    rw [hcount, if_pos (by omega)]
  · rw [hmout]
  · rw [hmout]
  · unfold exec_add_multiday_event
    rw [hmout, if_pos]
    rfl

/-- C1 witness: a three-day range creates three events and replies with the
count; the multiday call creates a single spanning all-day event. -/
theorem c1_range_and_multiday_dispatch_witness :
    dispatch_range_call "add_events_by_range"
        ⟨"스탠드업", "2025-10-01", "2025-10-03", "09:00", none, none, none⟩
      = some (exec_add_events_by_range
          ⟨"스탠드업", "2025-10-01", "2025-10-03", "09:00", none, none, none⟩) ∧
    (add_events_by_range "스탠드업" "2025-10-01" "2025-10-03" "09:00" none none).count = 3 ∧
    exec_add_events_by_range
        ⟨"스탠드업", "2025-10-01", "2025-10-03", "09:00", none, none, none⟩
      = "✅ 3개 일정이 추가되었습니다!\n\n📅 2025-10-01 ~ 2025-10-03\n🕐 09:00\n📝 스탠드업" ∧
    (add_multiday_event "스탠드업" "2025-10-01" "2025-10-03" none).events
      = [{ summary := some "스탠드업", startDate := some "2025-10-01",
           endDate := some "2025-10-04", description := none }] := by
  have h := c1_range_and_multiday_dispatch
    ⟨"스탠드업", "2025-10-01", "2025-10-03", "09:00", none, none, none⟩
    ⟨2025, 10, 1⟩ ⟨2025, 10, 3⟩ (by decide) (by decide) (by decide)
  refine ⟨h.1, ?_, ?_, ?_⟩
  · exact h.2.2.2.2.1.trans (by decide)
  · exact h.2.2.2.2.2.2.2.1.trans (by decide)
  · exact h.2.2.2.2.2.2.2.2.1.trans (by decide)
